import Mathlib

/-!
Shallow embedding of the JouleJ/scheme interpreter core
(src/object.h, src/scheme.h, src/parser.cpp, src/scheme.cpp).

Heap-allocated, mutable objects (Cell, Lambda, Scope) are modelled as indices
into explicit stores carried by an interpreter state; immutable values
(Number, Boolean, Symbol) are inlined.  C++ exceptions become an Except monad
carrying the error kind of src/error.h; every potentially diverging loop or
recursion of the C++ code (UnfoldList, ListToString, structural Equal,
Eval) takes an explicit fuel argument, with Err.fuelOut marking exhaustion
(fuel exhaustion is a model artifact, never a behaviour of the program).
-/

deriving instance DecidableEq for Except

namespace Scheme

/-- Runtime value variants of src/object.h.  Number, Boolean and Symbol are
immutable and inlined; cell and lambda are heap references (shared_ptr
identity) into the interpreter state's stores. -/
inductive Obj where
  | num (n : Int)
  | boolean (b : Bool)
  | sym (s : String)
  | cell (i : Nat)
  | lambda (i : Nat)
deriving DecidableEq, Repr

/-- A std::shared_ptr<Object>: none is the null pointer, i.e. the canonical
empty-list marker. -/
abbrev SObj := Option Obj

/-- Error kinds of src/error.h.  fuelOut marks exhausted model fuel (or a
dangling heap index, which no reachable state produces); terminated marks the
bare rethrow in the define command that calls std::terminate when no
exception is active. -/
inductive Err where
  | synErr
  | nameErr
  | runtimeErr
  | fuelOut
  | terminated
deriving DecidableEq, Repr

/-- One Scope of src/scheme.h: a map from names to value slots, a weak parent
handle and the externally managed liveness counter refs_ (a size_t). -/
structure Frame where
  parent : Option Nat
  vars : List (String × SObj)
  refs : Nat
deriving DecidableEq, Repr

/-- The data owned by one Lambda of src/object.h: parameter names, the weak
handle to its defining scope, the body expressions, and the bookkeeping set
local_scopes_ of call frames it has allocated. -/
structure LambdaData where
  argNames : List String
  scope : Nat
  expressions : List SObj
  localScopes : List Nat
deriving DecidableEq, Repr

/-- Interpreter-wide heap: all Cells, all Scopes and all Lambdas ever
allocated.  Reclaimed scopes stay in the store (only the bookkeeping set
forgets them), which is observationally faithful for the properties here. -/
structure State where
  cells : List (SObj × SObj)
  frames : List Frame
  lambdas : List LambdaData
deriving DecidableEq, Repr

/-- std::map find inside one Scope. -/
def frameFind : List (String × SObj) → String → Option SObj
  | [], _ => none
  | (k, v) :: rest, nm => if k = nm then some v else frameFind rest nm

/-- Assignment through the slot pointer returned by FindVariable:
overwrites the existing entry, touches nothing when the name is absent. -/
def frameAssign : List (String × SObj) → String → SObj → List (String × SObj)
  | [], _, _ => []
  | (k, v) :: rest, nm, newv =>
    if k = nm then (k, newv) :: rest else (k, v) :: frameAssign rest nm newv

/-- std::map::insert as used by Scope::SetLocalVariable: inserts only when
the key is absent, leaves an existing entry unchanged. -/
def frameInsert (vars : List (String × SObj)) (nm : String) (v : SObj) :
    List (String × SObj) :=
  if (frameFind vars nm).isSome then vars else (nm, v) :: vars

/-- Scope::FindVariable: walk from the frame outward through parent links.
Parents are always allocated before children, so the parent index is
strictly smaller; the fuel sc+1 supplied by findVariableFrame therefore
never runs out on a reachable state. -/
def findVarAux (frames : List Frame) (nm : String) : Nat → Nat → Option Nat
  | 0, _ => none
  | fuel + 1, sc =>
    match frames.get? sc with
    | none => none
    | some f =>
      if (frameFind f.vars nm).isSome then some sc
      else
        match f.parent with
        | some p => if p < sc then findVarAux frames nm fuel p else none
        | none => none

/-- The frame (if any) holding the nearest binding of nm, walking outward
from scope sc: the address part of Scope::FindVariable. -/
def findVariableFrame (frames : List Frame) (sc : Nat) (nm : String) : Option Nat :=
  findVarAux frames nm (sc + 1) sc

/-- Replace the frame at index fid by f. -/
def updateFrame (frames : List Frame) (fid : Nat) (f : Frame) : List Frame :=
  frames.set fid f

/-- Overwrite the existing slot for nm inside frame fid (dereferencing the
pointer FindVariable returned). -/
def assignAt (frames : List Frame) (fid : Nat) (nm : String) (v : SObj) : List Frame :=
  match frames.get? fid with
  | some f => updateFrame frames fid { f with vars := frameAssign f.vars nm v }
  | none => frames

/-- Scope::SetLocalVariable: variables_.insert(make_pair(name, value)), an
insert that does not overwrite an existing binding. -/
def setLocalVariable (frames : List Frame) (fid : Nat) (nm : String) (v : SObj) :
    List Frame :=
  match frames.get? fid with
  | some f => updateFrame frames fid { f with vars := frameInsert f.vars nm v }
  | none => frames

/-- Scope::SetVariable: mutate the nearest existing binding in the chain,
falling back to a local insert in the current frame when the name is unbound
everywhere. -/
def setVariable (frames : List Frame) (sc : Nat) (nm : String) (v : SObj) :
    List Frame :=
  match findVariableFrame frames sc nm with
  | some fid => assignAt frames fid nm v
  | none => setLocalVariable frames sc nm v

/-- Scope::GetVariable: dereference the found slot, NameError when the name
is unbound in the whole chain. -/
def getVariable (frames : List Frame) (sc : Nat) (nm : String) : Except Err SObj :=
  match findVariableFrame frames sc nm with
  | some fid =>
    match (frames.get? fid).bind (fun f => frameFind f.vars nm) with
    | some v => .ok v
    | none => .error .nameErr
  | none => .error .nameErr

/-- Scope::GetRefs (0 for a dangling handle, which no reachable state has). -/
def getRefs (frames : List Frame) (fid : Nat) : Nat :=
  match frames.get? fid with
  | some f => f.refs
  | none => 0

/-- Scope::AddRef: ++refs_ on a size_t. -/
def addRef (frames : List Frame) (fid : Nat) : List Frame :=
  match frames.get? fid with
  | some f => updateFrame frames fid { f with refs := (f.refs + 1) % 2 ^ 64 }
  | none => frames

/-- Scope::DelRef: --refs_ on a size_t (wraps at zero). -/
def delRef (frames : List Frame) (fid : Nat) : List Frame :=
  match frames.get? fid with
  | some f => updateFrame frames fid { f with refs := (f.refs + (2 ^ 64 - 1)) % 2 ^ 64 }
  | none => frames

mutual

/-- Equal of src/parser.cpp: nullptr handling, then virtual IsEqualTo.
Fuel bounds the structural recursion through Cell contents; none means the
recursion did not complete within the given fuel (for cyclic cell graphs it
never completes, mirroring non-termination of the C++ code). -/
def equalFuel : Nat → List (SObj × SObj) → SObj → SObj → Option Bool
  | 0, _, _, _ => none
  | fuel + 1, cells, a, b =>
    match a, b with
    | none, none => some true
    | none, some _ => some false
    | some _, none => some false
    | some x, some y => isEqualToFuel fuel cells x y

/-- The virtual IsEqualTo methods: value comparison for Number, Boolean and
Symbol, pointer identity for Lambda, and structural recursion through both
fields for Cell (with no identity short-circuit, exactly as in the source). -/
def isEqualToFuel : Nat → List (SObj × SObj) → Obj → Obj → Option Bool
  | 0, _, _, _ => none
  | fuel + 1, cells, x, y =>
    match x with
    | .num v => some (match y with | .num w => decide (v = w) | _ => false)
    | .boolean v => some (match y with | .boolean w => decide (v = w) | _ => false)
    | .sym s => some (match y with | .sym t => decide (s = t) | _ => false)
    | .lambda i => some (match y with | .lambda j => decide (i = j) | _ => false)
    | .cell i =>
      match y with
      | .cell j =>
        match cells.get? i, cells.get? j with
        | some (a1, b1), some (a2, b2) =>
          match equalFuel fuel cells a1 a2 with
          | none => none
          | some false => some false
          | some true => equalFuel fuel cells b1 b2
        | _, _ => none
      | _ => some false

end

/-- AsBoolean of src/parser.cpp: everything is truthy except Boolean false. -/
def asBoolean : SObj → Bool
  | some (.boolean b) => b
  | _ => true

/-- Not of src/parser.cpp. -/
def notOp (v : SObj) : SObj := some (.boolean (!asBoolean v))

/-- Add of src/parser.cpp: RuntimeError unless both operands are Numbers. -/
def addOp : SObj → SObj → Except Err SObj
  | some (.num x), some (.num y) => .ok (some (.num (x + y)))
  | _, _ => .error .runtimeErr

/-- Subtract of src/parser.cpp. -/
def subtractOp : SObj → SObj → Except Err SObj
  | some (.num x), some (.num y) => .ok (some (.num (x - y)))
  | _, _ => .error .runtimeErr

/-- Multiply of src/parser.cpp. -/
def multiplyOp : SObj → SObj → Except Err SObj
  | some (.num x), some (.num y) => .ok (some (.num (x * y)))
  | _, _ => .error .runtimeErr

/-- Divide of src/parser.cpp: RuntimeError unless both operands are Numbers
and the divisor is nonzero; int64 division truncates toward zero (Int.tdiv). -/
def divideOp : SObj → SObj → Except Err SObj
  | some (.num x), some (.num y) =>
    if y = 0 then .error .runtimeErr else .ok (some (.num (Int.tdiv x y)))
  | _, _ => .error .runtimeErr

/-- UnfoldList of src/scheme.cpp: flatten a proper list into its elements,
RuntimeError when a non-Cell tail is hit.  Fuel bounds the loop (the C++
loop never ends on a cyclic list). -/
def unfoldListFuel : Nat → State → SObj → Except Err (List SObj)
  | 0, _, _ => .error .fuelOut
  | _ + 1, _, none => .ok []
  | fuel + 1, st, some x =>
    match x with
    | .cell i =>
      match st.cells.get? i with
      | some (a, b) =>
        match unfoldListFuel fuel st b with
        | .ok rest => .ok (a :: rest)
        | .error e => .error e
      | none => .error .fuelOut
    | _ => .error .runtimeErr

/-- The trailing result.back() = close-bracket trick of Lambda::ToString:
overwrite the last character of the string. -/
def replaceLastWithParen (s : String) : String :=
  String.mk (s.data.dropLast ++ [')'])

/-- The "(lambda (" ++ names ++ trailing-space rendering of Lambda::ToString,
with the final space overwritten by the closing bracket.  When the parameter
list is empty the overwritten character is the opening bracket itself. -/
def lambdaHeader (names : List String) : String :=
  replaceLastWithParen ("(lambda (" ++ String.join (names.map (fun nm => nm ++ " ")))

mutual

/-- ToString of src/parser.cpp: "()" for nullptr, then the virtual
ToString methods.  Fuel bounds the recursion (ListToString loops forever on
a cyclic list in the source); none means fuel ran out. -/
def objStrFuel : Nat → State → SObj → Option String
  | 0, _, _ => none
  | fuel + 1, st, o =>
    match o with
    | none => some "()"
    | some (.num v) => some (toString v)
    | some (.boolean b) => some (if b then "#t" else "#f")
    | some (.sym s) => some s
    | some (.cell _) =>
      match listStrFuel fuel st o true with
      | some body => some ("(" ++ body)
      | none => none
    | some (.lambda i) =>
      match st.lambdas.get? i with
      | none => none
      | some lam =>
        match bodyStrFuel fuel st lam.expressions with
        | some b => some (lambdaHeader lam.argNames ++ b ++ ")")
        | none => none

/-- The while loop of ListToString: space-separated cars, " . " ++ tail for
an improper final cdr, closing bracket at the end. -/
def listStrFuel : Nat → State → SObj → Bool → Option String
  | 0, _, _, _ => none
  | _ + 1, _, none, _ => some ")"
  | fuel + 1, st, some x, first =>
    match x with
    | .cell i =>
      match st.cells.get? i with
      | none => none
      | some (a, b) =>
        match objStrFuel fuel st a, listStrFuel fuel st b false with
        | some sa, some rest => some ((if first then "" else " ") ++ sa ++ rest)
        | _, _ => none
    | _ =>
      match objStrFuel fuel st (some x) with
      | some s => some (" . " ++ s ++ ")")
      | none => none

/-- The body loop of Lambda::ToString: a space before each rendered body
expression. -/
def bodyStrFuel : Nat → State → List SObj → Option String
  | _, _, [] => some ""
  | 0, _, _ :: _ => none
  | fuel + 1, st, e :: es =>
    match objStrFuel fuel st e, bodyStrFuel fuel st es with
    | some s, some rest => some (" " ++ s ++ rest)
    | _, _ => none

end

/-- The type of the recursive Eval entry point threaded through the command
implementations (an Interpreter bound to a scope, applied to one object). -/
abbrev EvalFn := State → Nat → SObj → Except Err (SObj × State)

/-- The args[i] = Eval(args[i]) loop shared by the primitive commands:
evaluate a list of argument expressions left to right, threading the state. -/
def evalListWith (ev : EvalFn) (st : State) (sc : Nat) :
    List SObj → Except Err (List SObj × State)
  | [] => .ok ([], st)
  | a :: as =>
    match ev st sc a with
    | .error e => .error e
    | .ok (v, st1) =>
      match evalListWith ev st1 sc as with
      | .error e => .error e
      | .ok (vs, st2) => .ok (v :: vs, st2)

/-- The evaluate-then-require-Number loop of the comparison commands
(=, <, >, <=, >=): each argument is evaluated and immediately checked to be
a Number, failing with FailEvaluation (a RuntimeError) otherwise. -/
def evalNumArgsWith (ev : EvalFn) (st : State) (sc : Nat) :
    List SObj → Except Err (List Int × State)
  | [] => .ok ([], st)
  | a :: as =>
    match ev st sc a with
    | .error e => .error e
    | .ok (v, st1) =>
      match v with
      | some (.num k) =>
        match evalNumArgsWith ev st1 sc as with
        | .error e => .error e
        | .ok (ks, st2) => .ok (k :: ks, st2)
      | _ => .error .runtimeErr

/-- The body loop of Lambda::Call and of the special-form sequence: evaluate
each expression in turn, the last result wins; an empty sequence leaves the
default-constructed nullptr result. -/
def evalSeqWith (ev : EvalFn) (st : State) (sc : Nat) :
    List SObj → Except Err (SObj × State)
  | [] => .ok (none, st)
  | [e] => ev st sc e
  | e :: es =>
    match ev st sc e with
    | .error e1 => .error e1
    | .ok (_, st1) => evalSeqWith ev st1 sc es

/-- SymbolToName of src/scheme.cpp, with the throw turned into none. -/
def symToName : SObj → Option String
  | some (.sym s) => some s
  | _ => none

/-- SymbolToName mapped over a list (none when any element is not a Symbol). -/
def symNames : List SObj → Option (List String)
  | [] => some []
  | x :: xs =>
    match symToName x, symNames xs with
    | some s, some ss => some (s :: ss)
    | _, _ => none

/-- The fold of Add/Subtract/Multiply/Divide in the arithmetic commands. -/
def foldOp (f : SObj → SObj → Except Err SObj) : SObj → List SObj → Except Err SObj
  | acc, [] => .ok acc
  | acc, v :: vs =>
    match f acc v with
    | .ok r => foldOp f r vs
    | .error e => .error e

/-- Require every element to be a Number (the min/max pre-check loop). -/
def allNums : List SObj → Except Err (List Int)
  | [] => .ok []
  | some (.num k) :: rest =>
    match allNums rest with
    | .ok ks => .ok (k :: ks)
    | .error e => .error e
  | _ :: _ => .error .runtimeErr

/-- The adjacent-pair chain of the ordering commands: cmp args[i-1] args[i]
for every i from 2 on. -/
def chainCmp (cmp : Int → Int → Bool) : List Int → Bool
  | a :: b :: rest => cmp a b && chainCmp cmp (b :: rest)
  | _ => true

/-- The chain of the = command: args[1] compared against every later one. -/
def eqChain : List Int → Bool
  | [] => true
  | k :: ks => ks.all (fun z => decide (z = k))

/-- The quote command: returns args[1] unevaluated, FailEvaluation
(RuntimeError) unless exactly one argument. -/
def quoteCmd (st : State) (args : List SObj) : Except Err (SObj × State) :=
  match args with
  | [_, a] => .ok (a, st)
  | _ => .error .runtimeErr

/-- CheckTypeCommand of src/scheme.cpp: arity check first, then evaluate the
single argument and test its dynamic type. -/
def typeCmd (p : SObj → Bool) (ev : EvalFn) (st : State) (sc : Nat) (args : List SObj) :
    Except Err (SObj × State) :=
  match args with
  | [_, a] =>
    match ev st sc a with
    | .error e => .error e
    | .ok (v, st1) => .ok (some (.boolean (p v)), st1)
  | _ => .error .runtimeErr

/-- The = command. -/
def eqCmd (ev : EvalFn) (st : State) (sc : Nat) (args : List SObj) :
    Except Err (SObj × State) :=
  match evalNumArgsWith ev st sc (args.drop 1) with
  | .error e => .error e
  | .ok (ks, st1) => .ok (some (.boolean (eqChain ks)), st1)

/-- The shared shape of the <, >, <=, >= commands, differing only in the
comparison applied to adjacent (verified-Number) arguments. -/
def orderCmd (cmp : Int → Int → Bool) (ev : EvalFn) (st : State) (sc : Nat)
    (args : List SObj) : Except Err (SObj × State) :=
  match evalNumArgsWith ev st sc (args.drop 1) with
  | .error e => .error e
  | .ok (ks, st1) => .ok (some (.boolean (chainCmp cmp ks)), st1)

/-- The + command: evaluate all arguments, fold Add from the constant 0. -/
def addCmd (ev : EvalFn) (st : State) (sc : Nat) (args : List SObj) :
    Except Err (SObj × State) :=
  match evalListWith ev st sc (args.drop 1) with
  | .error e => .error e
  | .ok (vs, st1) =>
    match foldOp addOp (some (.num 0)) vs with
    | .ok r => .ok (r, st1)
    | .error e => .error e

/-- The * command: evaluate all arguments, fold Multiply from the constant 1. -/
def mulCmd (ev : EvalFn) (st : State) (sc : Nat) (args : List SObj) :
    Except Err (SObj × State) :=
  match evalListWith ev st sc (args.drop 1) with
  | .error e => .error e
  | .ok (vs, st1) =>
    match foldOp multiplyOp (some (.num 1)) vs with
    | .ok r => .ok (r, st1)
    | .error e => .error e

/-- The - command: evaluate all arguments, FailEvaluation when none, else
fold Subtract with args[1] (unchecked) as the starting accumulator. -/
def subCmd (ev : EvalFn) (st : State) (sc : Nat) (args : List SObj) :
    Except Err (SObj × State) :=
  match evalListWith ev st sc (args.drop 1) with
  | .error e => .error e
  | .ok (vs, st1) =>
    match vs with
    | [] => .error .runtimeErr
    | v0 :: rest =>
      match foldOp subtractOp v0 rest with
      | .ok r => .ok (r, st1)
      | .error e => .error e

/-- The / command: same shape as -, folding Divide. -/
def divCmd (ev : EvalFn) (st : State) (sc : Nat) (args : List SObj) :
    Except Err (SObj × State) :=
  match evalListWith ev st sc (args.drop 1) with
  | .error e => .error e
  | .ok (vs, st1) =>
    match vs with
    | [] => .error .runtimeErr
    | v0 :: rest =>
      match foldOp divideOp v0 rest with
      | .ok r => .ok (r, st1)
      | .error e => .error e

/-- The not command: evaluates all arguments, then requires exactly one. -/
def notCmd (ev : EvalFn) (st : State) (sc : Nat) (args : List SObj) :
    Except Err (SObj × State) :=
  match evalListWith ev st sc (args.drop 1) with
  | .error e => .error e
  | .ok (vs, st1) =>
    match vs with
    | [v] => .ok (notOp v, st1)
    | _ => .error .runtimeErr

/-- The short-circuit loop shared by and/or: evaluate left to right, return
the first value on which stop fires, else the last value. -/
def shortCircuit (stop : SObj → Bool) (ev : EvalFn) (st : State) (sc : Nat) :
    List SObj → Except Err (SObj × State)
  | [] => .ok (none, st)
  | [e] => ev st sc e
  | e :: es =>
    match ev st sc e with
    | .error e1 => .error e1
    | .ok (v, st1) => if stop v then .ok (v, st1) else shortCircuit stop ev st1 sc es

/-- The and command: zero arguments give #t. -/
def andCmd (ev : EvalFn) (st : State) (sc : Nat) (args : List SObj) :
    Except Err (SObj × State) :=
  match args.drop 1 with
  | [] => .ok (some (.boolean true), st)
  | es => shortCircuit (fun v => !asBoolean v) ev st sc es

/-- The or command: zero arguments give #f. -/
def orCmd (ev : EvalFn) (st : State) (sc : Nat) (args : List SObj) :
    Except Err (SObj × State) :=
  match args.drop 1 with
  | [] => .ok (some (.boolean false), st)
  | es => shortCircuit (fun v => asBoolean v) ev st sc es

/-- The min/max commands: evaluate all, require at least one, require all
Numbers, then fold keeping the extremum (first wins ties). -/
def extremumCmd (cmp : Int → Int → Bool) (ev : EvalFn) (st : State) (sc : Nat)
    (args : List SObj) : Except Err (SObj × State) :=
  match evalListWith ev st sc (args.drop 1) with
  | .error e => .error e
  | .ok (vs, st1) =>
    match vs with
    | [] => .error .runtimeErr
    | _ :: _ =>
      match allNums vs with
      | .error e => .error e
      | .ok ks =>
        match ks with
        | [] => .error .runtimeErr
        | k :: rest =>
          .ok (some (.num (rest.foldl (fun acc z => if cmp z acc then z else acc) k)), st1)

/-- The abs command. -/
def absCmd (ev : EvalFn) (st : State) (sc : Nat) (args : List SObj) :
    Except Err (SObj × State) :=
  match evalListWith ev st sc (args.drop 1) with
  | .error e => .error e
  | .ok (vs, st1) =>
    match vs with
    | [some (.num k)] =>
      if k ≥ 0 then .ok (some (.num k), st1) else .ok (some (.num (-k)), st1)
    | [_] => .error .runtimeErr
    | _ => .error .runtimeErr

/-- The null? command: pointer comparison against nullptr. -/
def nullCmd (ev : EvalFn) (st : State) (sc : Nat) (args : List SObj) :
    Except Err (SObj × State) :=
  match evalListWith ev st sc (args.drop 1) with
  | .error e => .error e
  | .ok (vs, st1) =>
    match vs with
    | [v] => .ok (some (.boolean (match v with | none => true | _ => false)), st1)
    | _ => .error .runtimeErr

/-- The cdr-chasing loop of the list? command (never ends on a cyclic list
in the source; fuel-bounded here). -/
def listQLoop (st : State) : Nat → SObj → Except Err Bool
  | 0, _ => .error .fuelOut
  | _ + 1, none => .ok true
  | fuel + 1, some x =>
    match x with
    | .cell i =>
      match st.cells.get? i with
      | some (_, b) => listQLoop st fuel b
      | none => .error .fuelOut
    | _ => .ok false

/-- The list? command. -/
def listQCmd (ev : EvalFn) (ufuel : Nat) (st : State) (sc : Nat) (args : List SObj) :
    Except Err (SObj × State) :=
  match evalListWith ev st sc (args.drop 1) with
  | .error e => .error e
  | .ok (vs, st1) =>
    match vs with
    | [v] =>
      match listQLoop st1 ufuel v with
      | .ok b => .ok (some (.boolean b), st1)
      | .error e => .error e
    | _ => .error .runtimeErr

/-- The cons command: allocates a fresh Cell. -/
def consCmd (ev : EvalFn) (st : State) (sc : Nat) (args : List SObj) :
    Except Err (SObj × State) :=
  match evalListWith ev st sc (args.drop 1) with
  | .error e => .error e
  | .ok (vs, st1) =>
    match vs with
    | [a, b] => .ok (some (.cell st1.cells.length), { st1 with cells := st1.cells ++ [(a, b)] })
    | _ => .error .runtimeErr

/-- The car command. -/
def carCmd (ev : EvalFn) (st : State) (sc : Nat) (args : List SObj) :
    Except Err (SObj × State) :=
  match evalListWith ev st sc (args.drop 1) with
  | .error e => .error e
  | .ok (vs, st1) =>
    match vs with
    | [some (.cell i)] =>
      match st1.cells.get? i with
      | some (a, _) => .ok (a, st1)
      | none => .error .fuelOut
    | [_] => .error .runtimeErr
    | _ => .error .runtimeErr

/-- The cdr command. -/
def cdrCmd (ev : EvalFn) (st : State) (sc : Nat) (args : List SObj) :
    Except Err (SObj × State) :=
  match evalListWith ev st sc (args.drop 1) with
  | .error e => .error e
  | .ok (vs, st1) =>
    match vs with
    | [some (.cell i)] =>
      match st1.cells.get? i with
      | some (_, b) => .ok (b, st1)
      | none => .error .fuelOut
    | [_] => .error .runtimeErr
    | _ => .error .runtimeErr

/-- The right-to-left Cell allocation of the list command (the cell for the
last element is allocated first, as in the C++ loop). -/
def allocCells (st : State) : List SObj → SObj × State
  | [] => (none, st)
  | v :: rest =>
    let (tail, st1) := allocCells st rest
    (some (.cell st1.cells.length), { st1 with cells := st1.cells ++ [(v, tail)] })

/-- The list command: evaluate all arguments, build a fresh proper list. -/
def listCmd (ev : EvalFn) (st : State) (sc : Nat) (args : List SObj) :
    Except Err (SObj × State) :=
  match evalListWith ev st sc (args.drop 1) with
  | .error e => .error e
  | .ok (vs, st1) =>
    let (r, st2) := allocCells st1 vs
    .ok (r, st2)

/-- The list-ref command.  The try/catch around UnfoldList rethrows every
language error as FailEvaluation (a RuntimeError); the int64 index is cast
to size_t, so a negative index is astronomically out of bounds. -/
def listRefCmd (ev : EvalFn) (ufuel : Nat) (st : State) (sc : Nat) (args : List SObj) :
    Except Err (SObj × State) :=
  match evalListWith ev st sc (args.drop 1) with
  | .error e => .error e
  | .ok (vs, st1) =>
    match vs with
    | [lst, idx] =>
      match unfoldListFuel ufuel st1 lst with
      | .error .fuelOut => .error .fuelOut
      | .error _ => .error .runtimeErr
      | .ok items =>
        match idx with
        | some (.num k) =>
          if k < 0 then .error .runtimeErr
          else if items.length ≤ k.toNat then .error .runtimeErr
          else
            match items.get? k.toNat with
            | some v => .ok (v, st1)
            | none => .error .runtimeErr
        | _ => .error .runtimeErr
    | _ => .error .runtimeErr

/-- The cdr-dropping loop of list-tail. -/
def dropLoop (st : State) : Nat → SObj → Except Err SObj
  | 0, o => .ok o
  | cnt + 1, o =>
    match o with
    | some (.cell i) =>
      match st.cells.get? i with
      | some (_, b) => dropLoop st cnt b
      | none => .error .fuelOut
    | _ => .error .runtimeErr

/-- The list-tail command: the int64 count is cast to size_t (mod 2^64). -/
def listTailCmd (ev : EvalFn) (st : State) (sc : Nat) (args : List SObj) :
    Except Err (SObj × State) :=
  match evalListWith ev st sc (args.drop 1) with
  | .error e => .error e
  | .ok (vs, st1) =>
    match vs with
    | [lst, idx] =>
      match idx with
      | some (.num k) =>
        match dropLoop st1 (k % (2 ^ 64 : Int)).toNat lst with
        | .ok r => .ok (r, st1)
        | .error e => .error e
      | _ => .error .runtimeErr
    | _ => .error .runtimeErr

/-- The define command of src/scheme.cpp, both forms.  The variable form
pre-binds the name to nullptr via SetVariable (mutating an existing binding
anywhere in the chain), evaluates the value, then SetVariable again.  The
procedure-sugar form parses the header (any parse failure is caught and
rethrown as SyntaxError, except an empty header, whose bare rethrow
terminates the process), allocates the Lambda (whose constructor AddRefs the
defining scope) and stores it the same way.  Both forms return nullptr. -/
def defineCmd (ev : EvalFn) (ufuel : Nat) (st : State) (sc : Nat) (args : List SObj) :
    Except Err (SObj × State) :=
  match args with
  | _ :: a1 :: rest =>
    match a1 with
    | some (.sym nm) =>
      match rest with
      | [valueExpr] =>
        let st1 := { st with frames := setVariable st.frames sc nm none }
        match ev st1 sc valueExpr with
        | .error e => .error e
        | .ok (v, st2) => .ok (none, { st2 with frames := setVariable st2.frames sc nm v })
      | _ => .error .synErr
    | _ =>
      match rest with
      | [] => .error .synErr
      | _ :: _ =>
        match unfoldListFuel ufuel st a1 with
        | .error .fuelOut => .error .fuelOut
        | .error _ => .error .synErr
        | .ok [] => .error .terminated
        | .ok (h :: tl) =>
          match symToName h, symNames tl with
          | some fname, some names =>
            let st1 := { st with frames := setVariable st.frames sc fname none }
            let li := st1.lambdas.length
            let st2 := { st1 with
              lambdas := st1.lambdas ++ [(⟨names, sc, rest, []⟩ : LambdaData)],
              frames := addRef st1.frames sc }
            .ok (none, { st2 with frames := setVariable st2.frames sc fname (some (.lambda li)) })
          | _, _ => .error .synErr
  | _ => .error .synErr

/-- The set! command: NameError when the target is unbound anywhere in the
chain, else overwrite the found slot in place; returns nullptr. -/
def setCmd (ev : EvalFn) (st : State) (sc : Nat) (args : List SObj) :
    Except Err (SObj × State) :=
  match args with
  | [_, some (.sym nm), valueExpr] =>
    match ev st sc valueExpr with
    | .error e => .error e
    | .ok (v, st1) =>
      match findVariableFrame st1.frames sc nm with
      | none => .error .nameErr
      | some fid => .ok (none, { st1 with frames := assignAt st1.frames fid nm v })
  | [_, _, _] => .error .synErr
  | _ => .error .synErr

/-- The set-car! command: the named variable must hold a Pair; its first
slot is mutated in place; returns nullptr. -/
def setCarCmd (ev : EvalFn) (st : State) (sc : Nat) (args : List SObj) :
    Except Err (SObj × State) :=
  match args with
  | [_, some (.sym nm), valueExpr] =>
    match ev st sc valueExpr with
    | .error e => .error e
    | .ok (v, st1) =>
      match findVariableFrame st1.frames sc nm with
      | none => .error .nameErr
      | some fid =>
        match (st1.frames.get? fid).bind (fun f => frameFind f.vars nm) with
        | some (some (.cell i)) =>
          match st1.cells.get? i with
          | some pr => .ok (none, { st1 with cells := st1.cells.set i (v, pr.2) })
          | none => .error .fuelOut
        | _ => .error .runtimeErr
  | [_, _, _] => .error .synErr
  | _ => .error .synErr

/-- The set-cdr! command: as set-car! but mutating the second slot. -/
def setCdrCmd (ev : EvalFn) (st : State) (sc : Nat) (args : List SObj) :
    Except Err (SObj × State) :=
  match args with
  | [_, some (.sym nm), valueExpr] =>
    match ev st sc valueExpr with
    | .error e => .error e
    | .ok (v, st1) =>
      match findVariableFrame st1.frames sc nm with
      | none => .error .nameErr
      | some fid =>
        match (st1.frames.get? fid).bind (fun f => frameFind f.vars nm) with
        | some (some (.cell i)) =>
          match st1.cells.get? i with
          | some pr => .ok (none, { st1 with cells := st1.cells.set i (pr.1, v) })
          | none => .error .fuelOut
        | _ => .error .runtimeErr
  | [_, _, _] => .error .synErr
  | _ => .error .synErr

/-- The lambda command: parse the parameter list (failures become
SyntaxError), allocate a Lambda capturing the current scope; the Lambda
constructor AddRefs that scope. -/
def lambdaCmd (ufuel : Nat) (st : State) (sc : Nat) (args : List SObj) :
    Except Err (SObj × State) :=
  match args with
  | _ :: a1 :: rest =>
    match rest with
    | [] => .error .synErr
    | _ :: _ =>
      match unfoldListFuel ufuel st a1 with
      | .error .fuelOut => .error .fuelOut
      | .error _ => .error .synErr
      | .ok items =>
        match symNames items with
        | none => .error .synErr
        | some names =>
          .ok (some (.lambda st.lambdas.length),
            { st with
              lambdas := st.lambdas ++ [(⟨names, sc, rest, []⟩ : LambdaData)],
              frames := addRef st.frames sc })
  | _ => .error .synErr

/-- The if command: 2 or 3 arguments; the missing else branch yields
nullptr. -/
def ifCmd (ev : EvalFn) (st : State) (sc : Nat) (args : List SObj) :
    Except Err (SObj × State) :=
  match args with
  | [_, c, t] =>
    match ev st sc c with
    | .error e => .error e
    | .ok (cv, st1) => if asBoolean cv then ev st1 sc t else .ok (none, st1)
  | [_, c, t, el] =>
    match ev st sc c with
    | .error e => .error e
    | .ok (cv, st1) => if asBoolean cv then ev st1 sc t else ev st1 sc el
  | _ => .error .synErr

/-- The bookkeeping prefix of Lambda::Call: allocate the new call frame
(child of the defining scope, liveness zero), sweep from local_scopes_ every
frame whose GetRefs() is ≤ 0 (a size_t, hence = 0), then register the new
frame.  This runs on every invocation, before the arity check. -/
def lambdaCallAlloc (frames : List Frame) (lam : LambdaData) :
    List Frame × LambdaData × Nat :=
  let newId := frames.length
  let frames1 := frames ++ [⟨some lam.scope, [], 0⟩]
  let kept := lam.localScopes.filter (fun i => !(decide (getRefs frames1 i ≤ 0)))
  (frames1, { lam with localScopes := kept ++ [newId] }, newId)

/-- The parameter-binding loop of Lambda::Call (SetLocalVariable in order). -/
def bindArgs : List Frame → Nat → List String → List SObj → List Frame
  | frames, _, [], _ => frames
  | frames, _, _ :: _, [] => frames
  | frames, fid, nm :: nms, v :: vs => bindArgs (setLocalVariable frames fid nm v) fid nms vs

/-- Lambda::Call: allocate/sweep/register, check arity (RuntimeError on
mismatch), bind parameters, run the body under a fresh Interpreter bound to
the new frame (whose constructor AddRefs it and destructor DelRefs it). -/
def lambdaCall (ev : EvalFn) (st : State) (li : Nat) (callArgs : List SObj) :
    Except Err (SObj × State) :=
  match st.lambdas.get? li with
  | none => .error .fuelOut
  | some lam =>
    let (frames1, lam1, newId) := lambdaCallAlloc st.frames lam
    let st1 := { st with frames := frames1, lambdas := st.lambdas.set li lam1 }
    if callArgs.length ≠ lam.argNames.length then .error .runtimeErr
    else
      let st2 := { st1 with frames := addRef (bindArgs st1.frames newId lam.argNames callArgs) newId }
      match evalSeqWith ev st2 newId lam.expressions with
      | .error e => .error e
      | .ok (res, st3) => .ok (res, { st3 with frames := delRef st3.frames newId })

/-- The commands_ table of Interpreter::InitCommands, keyed by name; none
means the name is not a command and Eval falls through to application. -/
def runCommand (ev : EvalFn) (ufuel : Nat) (st : State) (sc : Nat) (name : String)
    (args : List SObj) : Option (Except Err (SObj × State)) :=
  match name with
  | "quote" => some (quoteCmd st args)
  | "number?" => some (typeCmd (fun v => match v with | some (.num _) => true | _ => false) ev st sc args)
  | "boolean?" => some (typeCmd (fun v => match v with | some (.boolean _) => true | _ => false) ev st sc args)
  | "pair?" => some (typeCmd (fun v => match v with | some (.cell _) => true | _ => false) ev st sc args)
  | "symbol?" => some (typeCmd (fun v => match v with | some (.sym _) => true | _ => false) ev st sc args)
  | "=" => some (eqCmd ev st sc args)
  | "<" => some (orderCmd (fun a b => decide (a < b)) ev st sc args)
  | ">" => some (orderCmd (fun a b => decide (b < a)) ev st sc args)
  | "<=" => some (orderCmd (fun a b => decide (a < b) || decide (a = b)) ev st sc args)
  | ">=" => some (orderCmd (fun a b => decide (b < a) || decide (b = a)) ev st sc args)
  | "+" => some (addCmd ev st sc args)
  | "-" => some (subCmd ev st sc args)
  | "*" => some (mulCmd ev st sc args)
  | "/" => some (divCmd ev st sc args)
  | "not" => some (notCmd ev st sc args)
  | "and" => some (andCmd ev st sc args)
  | "or" => some (orCmd ev st sc args)
  | "min" => some (extremumCmd (fun a b => decide (a < b)) ev st sc args)
  | "max" => some (extremumCmd (fun a b => decide (b < a)) ev st sc args)
  | "abs" => some (absCmd ev st sc args)
  | "null?" => some (nullCmd ev st sc args)
  | "list?" => some (listQCmd ev ufuel st sc args)
  | "cons" => some (consCmd ev st sc args)
  | "car" => some (carCmd ev st sc args)
  | "cdr" => some (cdrCmd ev st sc args)
  | "list" => some (listCmd ev st sc args)
  | "list-ref" => some (listRefCmd ev ufuel st sc args)
  | "list-tail" => some (listTailCmd ev st sc args)
  | "define" => some (defineCmd ev ufuel st sc args)
  | "set!" => some (setCmd ev st sc args)
  | "set-car!" => some (setCarCmd ev st sc args)
  | "set-cdr!" => some (setCdrCmd ev st sc args)
  | "lambda" => some (lambdaCmd ufuel st sc args)
  | "if" => some (ifCmd ev st sc args)
  | _ => none

/-- The closure-application tail of Interpreter::Eval: evaluate the head,
require a Lambda (RuntimeError otherwise), evaluate the arguments left to
right, invoke Call. -/
def applyHead (ev : EvalFn) (st : State) (sc : Nat) (list : List SObj) :
    Except Err (SObj × State) :=
  match list with
  | [] => .error .runtimeErr
  | head :: rest =>
    match ev st sc head with
    | .error e => .error e
    | .ok (hv, st1) =>
      match hv with
      | some (.lambda li) =>
        match evalListWith ev st1 sc rest with
        | .error e => .error e
        | .ok (argsv, st2) => lambdaCall ev st2 li argsv
      | _ => .error .runtimeErr

/-- Interpreter::Eval: Numbers and Booleans are self; a Symbol is looked up
in the scope chain; a Cell is unfolded and dispatched, first to the command
table when the head is a command name, else applied as a closure call;
everything else (the empty list as a value, a Lambda appearing literally)
falls through to the final throw RuntimeError("Cannot evaluate"). -/
def evalFuel : Nat → State → Nat → SObj → Except Err (SObj × State)
  | 0, _, _, _ => .error .fuelOut
  | fuel + 1, st, sc, obj =>
    match obj with
    | some (.num v) => .ok (some (.num v), st)
    | some (.boolean b) => .ok (some (.boolean b), st)
    | some (.sym s) =>
      match getVariable st.frames sc s with
      | .ok v => .ok (v, st)
      | .error e => .error e
    | some (.cell i) =>
      match unfoldListFuel (fuel + 1) st (some (.cell i)) with
      | .error e => .error e
      | .ok list =>
        match list with
        | [] => .error .runtimeErr
        | head :: _ =>
          match head with
          | some (.sym cname) =>
            match runCommand (evalFuel fuel) fuel st sc cname list with
            | some r => r
            | none => applyHead (evalFuel fuel) st sc list
          | _ => applyHead (evalFuel fuel) st sc list
    | _ => .error .runtimeErr

/-- The root environment of a fresh Interpreter: one Scope with no parent,
AddRef-ed by the Interpreter constructor. -/
def initState : State := ⟨[], [⟨none, [], 1⟩], []⟩

/-! Concrete states used in settling the claims.  Expression graphs are laid
out in the cell store exactly as the reader would allocate them. -/

/-- The expression (define x 2), evaluated in a child frame of a root frame
that already binds x to 1. -/
def c1State : State :=
  ⟨[(some (.num 2), none), (some (.sym "x"), some (.cell 0)),
    (some (.sym "define"), some (.cell 1))],
   [⟨none, [("x", some (.num 1))], 1⟩, ⟨some 0, [], 1⟩], []⟩

/-- The state after evaluating (define x 2) in frame 1 of c1State: the
root binding was overwritten, the inner frame gained nothing. -/
def c1StateAfter : State :=
  ⟨[(some (.num 2), none), (some (.sym "x"), some (.cell 0)),
    (some (.sym "define"), some (.cell 1))],
   [⟨none, [("x", some (.num 2))], 1⟩, ⟨some 0, [], 1⟩], []⟩

/-- A root chain whose only frame already binds x to 1. -/
def c4Frames : List Frame := [⟨none, [("x", some (.num 1))], 1⟩]

/-- A state holding one zero-parameter Lambda with body (1). -/
def c3State : State := ⟨[], [⟨none, [], 1⟩], [⟨[], 0, [some (.num 1)], []⟩]⟩

/-- The expression (< 1 #t) over a fresh root environment. -/
def c6CexState : State :=
  ⟨[(some (.boolean true), none), (some (.num 1), some (.cell 0)),
    (some (.sym "<"), some (.cell 1))],
   [⟨none, [], 1⟩], []⟩

/-- The expression (- 5) over a fresh root environment. -/
def c7State : State :=
  ⟨[(some (.num 5), none), (some (.sym "-"), some (.cell 0))], [⟨none, [], 1⟩], []⟩

/-- A state holding one zero-parameter Lambda with body (1), for rendering. -/
def c8State : State := ⟨[], [⟨none, [], 1⟩], [⟨[], 0, [some (.num 1)], []⟩]⟩

/-- The expression (/ v 0) over a fresh root environment. -/
def c9State (v : Int) : State :=
  ⟨[(some (.num 0), none), (some (.num v), some (.cell 0)),
    (some (.sym "/"), some (.cell 1))],
   [⟨none, [], 1⟩], []⟩

/-- The two-expression program (define x (quote (1))) ; (set-cdr! x x) over
a fresh root environment; cell 5 is the first expression, cell 8 the
second. -/
def c5State : State :=
  ⟨[(some (.num 1), none), (some (.cell 0), none),
    (some (.sym "quote"), some (.cell 1)), (some (.cell 2), none),
    (some (.sym "x"), some (.cell 3)), (some (.sym "define"), some (.cell 4)),
    (some (.sym "x"), none), (some (.sym "x"), some (.cell 6)),
    (some (.sym "set-cdr!"), some (.cell 7))],
   [⟨none, [], 1⟩], []⟩

/-- c5State after (define x (quote (1))): x is bound to cell 0. -/
def c5StateMid : State :=
  ⟨[(some (.num 1), none), (some (.cell 0), none),
    (some (.sym "quote"), some (.cell 1)), (some (.cell 2), none),
    (some (.sym "x"), some (.cell 3)), (some (.sym "define"), some (.cell 4)),
    (some (.sym "x"), none), (some (.sym "x"), some (.cell 6)),
    (some (.sym "set-cdr!"), some (.cell 7))],
   [⟨none, [("x", some (.cell 0))], 1⟩], []⟩

/-- c5StateMid after (set-cdr! x x): cell 0 now points at itself. -/
def c5StateCyc : State :=
  ⟨[(some (.num 1), some (.cell 0)), (some (.cell 0), none),
    (some (.sym "quote"), some (.cell 1)), (some (.cell 2), none),
    (some (.sym "x"), some (.cell 3)), (some (.sym "define"), some (.cell 4)),
    (some (.sym "x"), none), (some (.sym "x"), some (.cell 6)),
    (some (.sym "set-cdr!"), some (.cell 7))],
   [⟨none, [("x", some (.cell 0))], 1⟩], []⟩

/-- The expression (define x 1) over a fresh root environment. -/
def c10State : State :=
  ⟨[(some (.num 1), none), (some (.sym "x"), some (.cell 0)),
    (some (.sym "define"), some (.cell 1))],
   [⟨none, [], 1⟩], []⟩

/-- c10State after (define x 1). -/
def c10StateAfter : State :=
  ⟨[(some (.num 1), none), (some (.sym "x"), some (.cell 0)),
    (some (.sym "define"), some (.cell 1))],
   [⟨none, [("x", some (.num 1))], 1⟩], []⟩

/-- C1 counterexample: evaluating (define x 2) in an inner frame whose
parent binds x does not bind x in the inner frame; it overwrites the outer
frame's binding, so the claim that define touches the current frame only is
false on this input. -/
theorem c1_counterexample :
    evalFuel 5 c1State 1 (some (.cell 2)) = .ok (none, c1StateAfter) ∧
    (c1StateAfter.frames.get? 1).map Frame.vars = some [] ∧
    (c1StateAfter.frames.get? 0).map Frame.vars = some [("x", some (.num 2))] ∧
    (c1State.frames.get? 0).map Frame.vars = some [("x", some (.num 1))] := by
  refine ⟨by decide, by decide, by decide, by decide⟩

/-- C4 counterexample: SetLocalVariable on a frame that already binds x
leaves the old value in place (std::map::insert does not overwrite), so a
subsequent lookup yields the old value, not the new one. -/
theorem c4_counterexample :
    getVariable (setLocalVariable c4Frames 0 "x" (some (.num 2))) 0 "x" =
      .ok (some (.num 1)) ∧
    (some (Obj.num 1) : SObj) ≠ some (.num 2) := by
  exact ⟨by decide, by decide⟩

/-- C3 counterexample: Eval applied to the empty-list marker as a value, and
to a Lambda appearing literally, throws RuntimeError("Cannot evaluate")
instead of returning the value unchanged. -/
theorem c3_counterexample :
    evalFuel 1 c3State 0 none = .error .runtimeErr ∧
    evalFuel 1 c3State 0 none ≠ .ok (none, c3State) ∧
    evalFuel 1 c3State 0 (some (.lambda 0)) = .error .runtimeErr ∧
    evalFuel 1 c3State 0 (some (.lambda 0)) ≠ .ok (some (.lambda 0), c3State) := by
  exact ⟨by decide, by decide, by decide, by decide⟩

/-- C6 counterexample: evaluating (< 1 #t) fails with a RuntimeError (the
FailEvaluation type check inside the < command), not with the NameError the
claim requires. -/
theorem c6_counterexample :
    evalFuel 4 c6CexState 0 (some (.cell 2)) = .error .runtimeErr ∧
    evalFuel 4 c6CexState 0 (some (.cell 2)) ≠ .error .nameErr := by
  exact ⟨by decide, by decide⟩

/-- C7 counterexample: evaluating (- 5), a single-argument subtraction,
returns 5 instead of failing with the RuntimeError the claim requires. -/
theorem c7_counterexample :
    evalFuel 3 c7State 0 (some (.cell 1)) = .ok (some (.num 5), c7State) ∧
    evalFuel 3 c7State 0 (some (.cell 1)) ≠ .error .runtimeErr := by
  exact ⟨by decide, by decide⟩

/-- C8: rendering a zero-parameter closure with body (1) produces
"(lambda ) 1)" — the back()-overwrite that normally replaces the trailing
space after the last parameter name destroys the parameter list's opening
bracket when there is no parameter, so the promised balanced
"(lambda () 1)" rendering is not produced. -/
theorem c8_zero_param_render :
    objStrFuel 3 c8State (some (.lambda 0)) = some "(lambda ) 1)" ∧
    objStrFuel 3 c8State (some (.lambda 0)) ≠ some "(lambda () 1)" := by
  exact ⟨by decide, by decide⟩

/-- C9: for every Number v, evaluating (/ v 0) fails with a RuntimeError
raised by Divide's zero-divisor check; no value is returned. -/
theorem c9_div_zero_runtime_error (v : Int) :
    evalFuel 4 (c9State v) 0 (some (.cell 2)) = .error .runtimeErr := by
  rfl

/-- C3 (amended): Eval applied to any value that is not a Number, Boolean,
Symbol or Pair — the empty-list marker as a value, or a Lambda appearing
literally — fails with RuntimeError("Cannot evaluate"); such values are not
self-evaluating, and the empty list is an evaluation error as a value, not
only in operator position. -/
theorem c3_eval_nonvalue_errors (fuel : Nat) (st : State) (sc : Nat) (x : SObj)
    (hx : x = none ∨ ∃ i, x = some (.lambda i)) :
    evalFuel (fuel + 1) st sc x = .error .runtimeErr := by
  rcases hx with h | ⟨i, h⟩ <;> subst h <;> rfl

/-- C3 witness: the amended theorem applied to the empty-list marker over a
fresh interpreter state. -/
theorem c3_witness :
    ((none : SObj) = none ∨ ∃ i, (none : SObj) = some (.lambda i)) ∧
    evalFuel 1 initState 0 none = .error .runtimeErr :=
  ⟨Or.inl rfl, c3_eval_nonvalue_errors 0 initState 0 none (Or.inl rfl)⟩

/-- Writing back the element that is already stored at an index leaves the
list unchanged. -/
theorem list_set_get_self {α : Type} (l : List α) (n : Nat) (a : α)
    (h : l.get? n = some a) : l.set n a = l := by
  induction l generalizing n with
  | nil => simp at h
  | cons b bs ih =>
    cases n with
    | zero => simp only [List.get?] at h; cases h; rfl
    | succ m =>
      simp only [List.get?] at h
      simp [List.set, ih m h]

/-- C4 (amended): SetLocalVariable creates the binding when the name is
absent from the frame (a subsequent lookup sees the new value); when the
frame already binds the name, std::map::insert is a no-op, the chain is
unchanged and lookup still yields the old value. -/
theorem c4_insert_keeps_existing (frames : List Frame) (fid : Nat) (nm : String)
    (v : SObj) (f : Frame) (hf : frames.get? fid = some f) :
    (frameFind f.vars nm = none →
      getVariable (setLocalVariable frames fid nm v) fid nm = .ok v) ∧
    (∀ w, frameFind f.vars nm = some w →
      setLocalVariable frames fid nm v = frames ∧
      getVariable frames fid nm = .ok w) := by
  have hlen : fid < frames.length := (List.get?_eq_some.mp hf).1
  constructor
  · intro habs
    have hins : frameInsert f.vars nm v = (nm, v) :: f.vars := by
      simp [frameInsert, habs]
    have hset : (setLocalVariable frames fid nm v).get? fid =
        some { f with vars := (nm, v) :: f.vars } := by
      simp only [setLocalVariable, hf, updateFrame, hins]
      exact List.get?_set_eq_of_lt _ hlen
    simp [getVariable, findVariableFrame, findVarAux, ← List.get?_eq_getElem?, hset, frameFind]
  · intro w hw
    have hins : frameInsert f.vars nm v = f.vars := by
      simp [frameInsert, hw]
    have hsame : setLocalVariable frames fid nm v = frames := by
      simp only [setLocalVariable, hf, updateFrame, hins]
      exact list_set_get_self frames fid f hf
    refine ⟨hsame, ?_⟩
    simp [getVariable, findVariableFrame, findVarAux, ← List.get?_eq_getElem?, hf, hw]

/-- C4 witness: the amended theorem applied to a root frame without a
binding for y and to the same frame's existing binding of x. -/
theorem c4_witness :
    (c4Frames.get? 0 = some ⟨none, [("x", some (.num 1))], 1⟩) ∧
    (frameFind (⟨none, [("x", some (.num 1))], 1⟩ : Frame).vars "y" = none) ∧
    getVariable (setLocalVariable c4Frames 0 "y" (some (.num 2))) 0 "y" =
      .ok (some (.num 2)) :=
  ⟨rfl, rfl,
    (c4_insert_keeps_existing c4Frames 0 "y" (some (.num 2)) _ rfl).1 rfl⟩

/-- getRefs reads through an append when the index stays inside the original
store. -/
theorem getRefs_append_left (frames l2 : List Frame) (j : Nat)
    (h : j < frames.length) : getRefs (frames ++ l2) j = getRefs frames j := by
  unfold getRefs
  rw [List.get?_append h]

/-- C2: on every invocation of Lambda::Call the bookkeeping set
local_scopes_ is swept of exactly those previously allocated frames whose
liveness counter is ≤ 0 (kept iff the counter is positive), the freshly
allocated frame is registered, and the frame store itself only grows — the
sweep inside Call is the only place a frame leaves the owning set. -/
theorem c2_call_sweeps_dead_frames (frames : List Frame) (lam : LambdaData)
    (hlt : ∀ j ∈ lam.localScopes, j < frames.length) :
    (lambdaCallAlloc frames lam).1 = frames ++ [⟨some lam.scope, [], 0⟩] ∧
    (lambdaCallAlloc frames lam).2.2 = frames.length ∧
    ∀ j, j ∈ (lambdaCallAlloc frames lam).2.1.localScopes ↔
      ((j ∈ lam.localScopes ∧ 0 < getRefs frames j) ∨ j = frames.length) := by
  refine ⟨rfl, rfl, ?_⟩
  intro j
  simp only [lambdaCallAlloc, List.mem_append, List.mem_filter, List.mem_singleton,
    Bool.not_eq_true', decide_eq_false_iff_not, Nat.not_le]
  constructor
  · rintro (⟨hj, hpos⟩ | hj)
    · exact Or.inl ⟨hj, by rwa [getRefs_append_left frames _ j (hlt j hj)] at hpos⟩
    · exact Or.inr hj
  · rintro (⟨hj, hpos⟩ | hj)
    · exact Or.inl ⟨hj, by rwa [getRefs_append_left frames _ j (hlt j hj)]⟩
    · exact Or.inr hj

/-- A two-frame store and a lambda whose bookkeeping set holds one dead
frame (liveness 0), for exercising the sweep. -/
def c2Frames : List Frame := [⟨none, [], 1⟩, ⟨some 0, [], 0⟩]

/-- A lambda defined in the root frame that has previously allocated frame 1. -/
def c2Lambda : LambdaData := ⟨[], 0, [some (.num 1)], [1]⟩

/-- C2 witness: the sweep theorem applied to a concrete dead frame: frame 1
has liveness 0, so after the call it is no longer in the bookkeeping set,
while the new frame 2 is. -/
theorem c2_witness :
    (∀ j ∈ c2Lambda.localScopes, j < c2Frames.length) ∧
    (1 ∈ (lambdaCallAlloc c2Frames c2Lambda).2.1.localScopes ↔
      ((1 ∈ c2Lambda.localScopes ∧ 0 < getRefs c2Frames 1) ∨ 1 = c2Frames.length)) :=
  ⟨by decide, (c2_call_sweeps_dead_frames c2Frames c2Lambda (by decide)).2.2 1⟩

/-- Folding Subtract over Number values subtracts left to right from the
first accumulator. -/
theorem foldOp_subtract (k : Int) (ks : List Int) :
    foldOp subtractOp (some (.num k)) (ks.map (fun z => some (.num z))) =
      .ok (some (.num (ks.foldl (fun acc z => acc - z) k))) := by
  induction ks generalizing k with
  | nil => rfl
  | cons z zs ih => simpa [foldOp, subtractOp] using ih (k - z)

/-- Folding Divide over nonzero Number values divides left to right from the
first accumulator. -/
theorem foldOp_divide (k : Int) (ks : List Int) (hz : ∀ z ∈ ks, z ≠ 0) :
    foldOp divideOp (some (.num k)) (ks.map (fun z => some (.num z))) =
      .ok (some (.num (ks.foldl (fun acc z => Int.tdiv acc z) k))) := by
  induction ks generalizing k with
  | nil => rfl
  | cons z zs ih =>
    have hz0 : z ≠ 0 := hz z (by simp)
    simpa [foldOp, divideOp, hz0] using ih (Int.tdiv k z) (fun y hy => hz y (by simp [hy]))

/-- C7 (amended): the - and / primitives fail with RuntimeError on zero
arguments; applied to exactly one argument they return that evaluated
argument unchanged (no failure); with two or more Number arguments the first
argument is the starting accumulator folded left to right through
Subtract/Divide. -/
theorem c7_sub_div_arity (ev : EvalFn) (st : State) (sc : Nat) :
    (subCmd ev st sc [some (.sym "-")] = .error .runtimeErr) ∧
    (divCmd ev st sc [some (.sym "/")] = .error .runtimeErr) ∧
    (∀ a v st1, ev st sc a = .ok (v, st1) →
      subCmd ev st sc [some (.sym "-"), a] = .ok (v, st1) ∧
      divCmd ev st sc [some (.sym "/"), a] = .ok (v, st1)) ∧
    (∀ argExprs k ks st1,
      evalListWith ev st sc argExprs = .ok ((k :: ks).map (fun z => some (.num z)), st1) →
      subCmd ev st sc (some (.sym "-") :: argExprs) =
        .ok (some (.num (ks.foldl (fun acc z => acc - z) k)), st1)) ∧
    (∀ argExprs k ks st1,
      evalListWith ev st sc argExprs = .ok ((k :: ks).map (fun z => some (.num z)), st1) →
      (∀ z ∈ ks, z ≠ 0) →
      divCmd ev st sc (some (.sym "/") :: argExprs) =
        .ok (some (.num (ks.foldl (fun acc z => Int.tdiv acc z) k)), st1)) := by
  refine ⟨rfl, rfl, ?_, ?_, ?_⟩
  · intro a v st1 hev
    constructor <;> simp [subCmd, divCmd, evalListWith, hev, foldOp]
  · intro argExprs k ks st1 hev
    simp [subCmd, hev, foldOp_subtract]
  · intro argExprs k ks st1 hev hz
    simp [divCmd, hev, foldOp_divide k ks hz]

/-- C7 witness: the amended theorem applied to (- of nothing), to (- 5),
and to the literal argument lists of (- 7 2) and (/ 7 2). -/
theorem c7_witness :
    (subCmd (evalFuel 1) initState 0 [some (.sym "-")] = .error .runtimeErr) ∧
    (evalFuel 1 initState 0 (some (.num 5)) = .ok (some (.num 5), initState)) ∧
    (subCmd (evalFuel 1) initState 0 [some (.sym "-"), some (.num 5)] =
      .ok (some (.num 5), initState)) ∧
    (evalListWith (evalFuel 1) initState 0 [some (.num 7), some (.num 2)] =
      .ok (([7, 2] : List Int).map (fun z => some (.num z)), initState)) ∧
    (subCmd (evalFuel 1) initState 0 [some (.sym "-"), some (.num 7), some (.num 2)] =
      .ok (some (.num 5), initState)) ∧
    (divCmd (evalFuel 1) initState 0 [some (.sym "/"), some (.num 7), some (.num 2)] =
      .ok (some (.num 3), initState)) := by
  refine ⟨(c7_sub_div_arity (evalFuel 1) initState 0).1, rfl, ?_, rfl, ?_, ?_⟩
  · exact ((c7_sub_div_arity (evalFuel 1) initState 0).2.2.1
      (some (.num 5)) (some (.num 5)) initState rfl).1
  · exact (c7_sub_div_arity (evalFuel 1) initState 0).2.2.2.1
      [some (.num 7), some (.num 2)] 7 [2] initState rfl
  · exact (c7_sub_div_arity (evalFuel 1) initState 0).2.2.2.2
      [some (.num 7), some (.num 2)] 7 [2] initState rfl (by decide)

/-- Every successful run of the define command yields nullptr. -/
theorem defineCmd_ok_none (ev : EvalFn) (ufuel : Nat) (st : State) (sc : Nat)
    (args : List SObj) (r : SObj) (st' : State)
    (h : defineCmd ev ufuel st sc args = .ok (r, st')) : r = none := by
  unfold defineCmd at h
  dsimp only at h
  repeat' split at h
  all_goals simp_all

/-- Every successful run of the set! command yields nullptr. -/
theorem setCmd_ok_none (ev : EvalFn) (st : State) (sc : Nat)
    (args : List SObj) (r : SObj) (st' : State)
    (h : setCmd ev st sc args = .ok (r, st')) : r = none := by
  unfold setCmd at h
  repeat' split at h
  all_goals simp_all

/-- Every successful run of the set-car! command yields nullptr. -/
theorem setCarCmd_ok_none (ev : EvalFn) (st : State) (sc : Nat)
    (args : List SObj) (r : SObj) (st' : State)
    (h : setCarCmd ev st sc args = .ok (r, st')) : r = none := by
  unfold setCarCmd at h
  repeat' split at h
  all_goals simp_all

/-- Every successful run of the set-cdr! command yields nullptr. -/
theorem setCdrCmd_ok_none (ev : EvalFn) (st : State) (sc : Nat)
    (args : List SObj) (r : SObj) (st' : State)
    (h : setCdrCmd ev st sc args = .ok (r, st')) : r = none := by
  unfold setCdrCmd at h
  repeat' split at h
  all_goals simp_all

/-- Eval on a list whose head names a command dispatches to that command. -/
theorem eval_cell_command (fuel : Nat) (st : State) (sc : Nat) (i : Nat)
    (c : String) (tl : List SObj) (res : Except Err (SObj × State))
    (hu : unfoldListFuel (fuel + 1) st (some (.cell i)) = .ok (some (.sym c) :: tl))
    (hr : runCommand (evalFuel fuel) fuel st sc c (some (.sym c) :: tl) = some res) :
    evalFuel (fuel + 1) st sc (some (.cell i)) = res := by
  simp only [evalFuel]
  rw [hu]
  show (match runCommand (evalFuel fuel) fuel st sc c (some (.sym c) :: tl) with
        | some r => r
        | none => applyHead (evalFuel fuel) st sc (some (.sym c) :: tl)) = res
  rw [hr]

/-- C10: every successful evaluation of a define, set!, set-car! or
set-cdr! form yields the empty-list marker, whatever value was bound or
stored. -/
theorem c10_mutators_return_nil (fuel : Nat) (st : State) (sc : Nat) (i : Nat)
    (tl : List SObj) (c : String) (r : SObj) (st' : State)
    (hu : unfoldListFuel (fuel + 1) st (some (.cell i)) = .ok (some (.sym c) :: tl))
    (hc : c ∈ ["define", "set!", "set-car!", "set-cdr!"])
    (he : evalFuel (fuel + 1) st sc (some (.cell i)) = .ok (r, st')) :
    r = none := by
  simp only [List.mem_cons, List.not_mem_nil, or_false] at hc
  rcases hc with rfl | rfl | rfl | rfl
  · rw [eval_cell_command fuel st sc i "define" tl _ hu rfl] at he
    exact defineCmd_ok_none _ _ _ _ _ _ _ he
  · rw [eval_cell_command fuel st sc i "set!" tl _ hu rfl] at he
    exact setCmd_ok_none _ _ _ _ _ _ he
  · rw [eval_cell_command fuel st sc i "set-car!" tl _ hu rfl] at he
    exact setCarCmd_ok_none _ _ _ _ _ _ he
  · rw [eval_cell_command fuel st sc i "set-cdr!" tl _ hu rfl] at he
    exact setCdrCmd_ok_none _ _ _ _ _ _ he

/-- C10 witness: the theorem applied to the concrete evaluation of
(define x 1), whose result is the empty-list marker. -/
theorem c10_witness :
    (unfoldListFuel 4 c10State (some (.cell 2)) =
      .ok [some (.sym "define"), some (.sym "x"), some (.num 1)]) ∧
    ("define" ∈ ["define", "set!", "set-car!", "set-cdr!"]) ∧
    (evalFuel 4 c10State 0 (some (.cell 2)) = .ok (none, c10StateAfter)) ∧
    (none : SObj) = none :=
  ⟨by decide, by decide, by decide,
    c10_mutators_return_nil 3 c10State 0 2 [some (.sym "x"), some (.num 1)]
      "define" none c10StateAfter (by decide) (by decide) (by decide)⟩

/-- Assigning through the found slot maps the existing entry to the new
value and does nothing when the name is absent. -/
theorem frameFind_assign (vars : List (String × SObj)) (nm : String) (v : SObj) :
    frameFind (frameAssign vars nm v) nm = (frameFind vars nm).map (fun _ => v) := by
  induction vars with
  | nil => rfl
  | cons p rest ih =>
    obtain ⟨k, w⟩ := p
    by_cases hk : k = nm
    · subst hk; simp [frameAssign, frameFind]
    · simp [frameAssign, frameFind, hk, ih]

/-- frameAssign never changes whether a name is bound. -/
theorem frameFind_assign_isSome (vars : List (String × SObj)) (nm : String) (v : SObj) :
    (frameFind (frameAssign vars nm v) nm).isSome = (frameFind vars nm).isSome := by
  rw [frameFind_assign]
  cases frameFind vars nm <;> rfl

/-- assignAt leaves every other frame untouched. -/
theorem assignAt_get?_ne (frames : List Frame) (fid j : Nat) (nm : String) (v : SObj)
    (h : j ≠ fid) : (assignAt frames fid nm v).get? j = frames.get? j := by
  unfold assignAt
  cases hf : frames.get? fid with
  | none => rfl
  | some f => exact List.get?_set_ne _ _ (fun he => h he.symm)

/-- assignAt rewrites exactly the targeted frame. -/
theorem assignAt_get?_self (frames : List Frame) (fid : Nat) (nm : String) (v : SObj)
    (f : Frame) (hf : frames.get? fid = some f) :
    (assignAt frames fid nm v).get? fid =
      some { f with vars := frameAssign f.vars nm v } := by
  unfold assignAt updateFrame
  rw [hf]
  exact List.get?_set_eq_of_lt _ (List.get?_eq_some.mp hf).1

/-- FindVariable only looks at parent pointers and at whether each frame
binds the name: two stores agreeing on that shape resolve every lookup the
same way. -/
theorem findVarAux_congr (frames frames' : List Frame) (nm : String)
    (hsh : ∀ j, (frames'.get? j).map (fun f => (f.parent, (frameFind f.vars nm).isSome)) =
                (frames.get? j).map (fun f => (f.parent, (frameFind f.vars nm).isSome))) :
    ∀ fuel sc, findVarAux frames' nm fuel sc = findVarAux frames nm fuel sc := by
  intro fuel
  induction fuel with
  | zero => intro sc; rfl
  | succ n ih =>
    intro sc
    have h := hsh sc
    cases hf : frames.get? sc with
    | none =>
      rw [hf] at h
      have h2 : frames'.get? sc = none := by
        cases hf' : frames'.get? sc with
        | none => rfl
        | some f' => rw [hf'] at h; simp at h
      simp [findVarAux, ← List.get?_eq_getElem?, hf, h2]
    | some f =>
      rw [hf] at h
      cases hf' : frames'.get? sc with
      | none => rw [hf'] at h; simp at h
      | some f' =>
        rw [hf'] at h
        simp only [Option.map_some', Option.some.injEq, Prod.mk.injEq] at h
        obtain ⟨hp, hpres⟩ := h
        simp only [findVarAux, ← List.get?_eq_getElem?, hf, hf', hp, hpres]
        cases f.parent with
        | none => rfl
        | some p =>
          by_cases hlt : p < sc
          · simp [hlt, ih p]
          · simp [hlt]

/-- A successful FindVariable names a frame that really binds the name. -/
theorem findVarAux_some (frames : List Frame) (nm : String) :
    ∀ fuel sc fid, findVarAux frames nm fuel sc = some fid →
      ∃ f, frames.get? fid = some f ∧ (frameFind f.vars nm).isSome := by
  intro fuel
  induction fuel with
  | zero => intro sc fid h; simp [findVarAux] at h
  | succ n ih =>
    intro sc fid h
    unfold findVarAux at h
    cases hf : frames.get? sc with
    | none => rw [hf] at h; simp at h
    | some f =>
      rw [hf] at h
      simp only at h
      by_cases hp : (frameFind f.vars nm).isSome
      · rw [if_pos hp] at h
        cases h
        exact ⟨f, hf, hp⟩
      · rw [if_neg hp] at h
        cases hpar : f.parent with
        | none => rw [hpar] at h; cases h
        | some p =>
          rw [hpar] at h
          simp only at h
          by_cases hlt : p < sc
          · rw [if_pos hlt] at h; exact ih p fid h
          · rw [if_neg hlt] at h; cases h

/-- assignAt preserves the shape FindVariable inspects. -/
theorem assignAt_shape (frames : List Frame) (fid : Nat) (nm : String) (v : SObj) :
    ∀ j, ((assignAt frames fid nm v).get? j).map
            (fun f => (f.parent, (frameFind f.vars nm).isSome)) =
         (frames.get? j).map (fun f => (f.parent, (frameFind f.vars nm).isSome)) := by
  intro j
  by_cases hj : j = fid
  · subst hj
    cases hf : frames.get? j with
    | none => unfold assignAt; rw [hf]; exact congrArg _ hf
    | some f =>
      rw [assignAt_get?_self frames j nm v f hf]
      simp [frameFind_assign_isSome]
  · rw [assignAt_get?_ne frames fid j nm v hj]

/-- Lookup resolution is unchanged by an assignment through a found slot. -/
theorem findVariableFrame_assignAt (frames : List Frame) (fid : Nat) (nm : String)
    (v : SObj) (sc : Nat) :
    findVariableFrame (assignAt frames fid nm v) sc nm = findVariableFrame frames sc nm :=
  findVarAux_congr frames (assignAt frames fid nm v) nm
    (assignAt_shape frames fid nm v) (sc + 1) sc

/-- C1 (amended): a variable define with a Number literal overwrites the
binding in the nearest enclosing frame that already binds the name (walking
outward from the current frame), leaving every other frame untouched; only
when the name is unbound in the whole chain does it create the binding in
the current frame.  In both cases the later lookup target holds the new
value, and nothing else in the state changes. -/
theorem c1_define_targets_nearest_binding (st : State) (sc : Nat) (nm : String)
    (v : Int) (f : Frame) (hsc : st.frames.get? sc = some f) :
    ∃ st2, defineCmd (evalFuel 1) 1 st sc
        [some (.sym "define"), some (.sym nm), some (.num v)] = .ok (none, st2) ∧
      st2.cells = st.cells ∧ st2.lambdas = st.lambdas ∧
      (∀ fid, findVariableFrame st.frames sc nm = some fid →
        (∀ j, j ≠ fid → st2.frames.get? j = st.frames.get? j) ∧
        ((st2.frames.get? fid).bind (fun fr => frameFind fr.vars nm)) =
          some (some (.num v))) ∧
      (findVariableFrame st.frames sc nm = none →
        (∀ j, j ≠ sc → st2.frames.get? j = st.frames.get? j) ∧
        ((st2.frames.get? sc).bind (fun fr => frameFind fr.vars nm)) =
          some (some (.num v))) := by
  refine ⟨⟨st.cells,
    setVariable (setVariable st.frames sc nm none) sc nm (some (.num v)),
    st.lambdas⟩, rfl, rfl, rfl, ?_, ?_⟩
  · intro fid hfid
    have hstep1 : setVariable st.frames sc nm none = assignAt st.frames fid nm none := by
      simp [setVariable, hfid]
    have hfid2 : findVariableFrame (assignAt st.frames fid nm none) sc nm = some fid := by
      rw [findVariableFrame_assignAt, hfid]
    have hstep2 : setVariable (setVariable st.frames sc nm none) sc nm (some (.num v)) =
        assignAt (assignAt st.frames fid nm none) fid nm (some (.num v)) := by
      rw [hstep1, setVariable, hfid2]
    constructor
    · intro j hj
      rw [hstep2, assignAt_get?_ne _ _ _ _ _ hj, assignAt_get?_ne _ _ _ _ _ hj]
    · obtain ⟨g, hg, hgp⟩ := findVarAux_some st.frames nm (sc + 1) sc fid hfid
      have h1 : (assignAt st.frames fid nm none).get? fid =
          some { g with vars := frameAssign g.vars nm none } :=
        assignAt_get?_self st.frames fid nm none g hg
      have h2 : (assignAt (assignAt st.frames fid nm none) fid nm (some (.num v))).get? fid =
          some { g with vars := frameAssign (frameAssign g.vars nm none) nm (some (.num v)) } :=
        assignAt_get?_self _ fid nm (some (.num v)) _ h1
      rw [hstep2, h2]
      simp only [Option.some_bind]
      rw [frameFind_assign, frameFind_assign]
      obtain ⟨w, hw⟩ := Option.isSome_iff_exists.mp hgp
      rw [hw]
      rfl
  · intro hnone
    have hpres : frameFind f.vars nm = none := by
      by_contra hne
      have hps : (frameFind f.vars nm).isSome := Option.ne_none_iff_isSome.mp hne
      unfold findVariableFrame findVarAux at hnone
      rw [hsc] at hnone
      simp only at hnone
      rw [if_pos hps] at hnone
      cases hnone
    have hlen : sc < st.frames.length := (List.get?_eq_some.mp hsc).1
    have hstep1 : setVariable st.frames sc nm none =
        st.frames.set sc { f with vars := (nm, none) :: f.vars } := by
      simp [setVariable, hnone, setLocalVariable, ← List.get?_eq_getElem?, hsc,
        updateFrame, frameInsert, hpres]
    have hget1 : (st.frames.set sc { f with vars := (nm, none) :: f.vars }).get? sc =
        some { f with vars := (nm, none) :: f.vars } :=
      List.get?_set_eq_of_lt _ hlen
    have hfind1 : findVariableFrame
        (st.frames.set sc { f with vars := (nm, none) :: f.vars }) sc nm = some sc := by
      unfold findVariableFrame findVarAux
      rw [hget1]
      simp [frameFind]
    have hstep2 : setVariable (setVariable st.frames sc nm none) sc nm (some (.num v)) =
        assignAt (st.frames.set sc { f with vars := (nm, none) :: f.vars }) sc nm
          (some (.num v)) := by
      rw [hstep1, setVariable, hfind1]
    constructor
    · intro j hj
      rw [hstep2, assignAt_get?_ne _ _ _ _ _ hj,
        List.get?_set_ne _ _ (fun he => hj he.symm)]
    · have h2 : (assignAt (st.frames.set sc { f with vars := (nm, none) :: f.vars }) sc nm
          (some (.num v))).get? sc =
          some { f with vars := frameAssign ((nm, none) :: f.vars) nm (some (.num v)) } :=
        assignAt_get?_self _ sc nm (some (.num v)) _ hget1
      rw [hstep2, h2]
      simp [frameAssign, frameFind]

/-- C1 witness: the amended theorem applied to the two-frame chain of the
counterexample, where the nearest binding of x lives in the outer frame. -/
theorem c1_amended_witness :
    (c1State.frames.get? 1 = some ⟨some 0, [], 1⟩) ∧
    ∃ st2, defineCmd (evalFuel 1) 1 c1State 1
        [some (.sym "define"), some (.sym "x"), some (.num 2)] = .ok (none, st2) ∧
      st2.cells = c1State.cells ∧ st2.lambdas = c1State.lambdas ∧
      (∀ fid, findVariableFrame c1State.frames 1 "x" = some fid →
        (∀ j, j ≠ fid → st2.frames.get? j = c1State.frames.get? j) ∧
        ((st2.frames.get? fid).bind (fun fr => frameFind fr.vars "x")) =
          some (some (.num 2))) ∧
      (findVariableFrame c1State.frames 1 "x" = none →
        (∀ j, j ≠ 1 → st2.frames.get? j = c1State.frames.get? j) ∧
        ((st2.frames.get? 1).bind (fun fr => frameFind fr.vars "x")) =
          some (some (.num 2))) :=
  ⟨rfl, c1_define_targets_nearest_binding c1State 1 "x" 2 ⟨some 0, [], 1⟩ rfl⟩

/-- On the self-referential pair built by set-cdr! the structural equality
recursion makes no progress: it burns fuel forever at every fuel amount
(the C++ recursion never returns). -/
theorem isEqual_cyc_pair (cells : List (SObj × SObj)) (i : Nat)
    (h : cells.get? i = some (some (.num 1), some (.cell i))) :
    ∀ k, isEqualToFuel k cells (.cell i) (.cell i) = none ∧
         isEqualToFuel (k + 1) cells (.cell i) (.cell i) = none := by
  intro k
  induction k with
  | zero =>
    refine ⟨rfl, ?_⟩
    simp only [isEqualToFuel]
    rw [h]
    simp [equalFuel]
  | succ j ih =>
    refine ⟨ih.2, ?_⟩
    cases j with
    | zero =>
      simp only [isEqualToFuel]
      rw [h]
      simp [equalFuel, isEqualToFuel]
    | succ m =>
      simp only [isEqualToFuel]
      rw [h]
      show (match equalFuel (m + 1 + 1) cells (some (.num 1)) (some (.num 1)) with
            | none => none
            | some false => some false
            | some true => equalFuel (m + 1 + 1) cells (some (.cell i)) (some (.cell i))) = none
      have e1 : equalFuel (m + 1 + 1) cells (some (.num 1)) (some (.num 1)) = some true := by
        simp [equalFuel, isEqualToFuel]
      rw [e1]
      show isEqualToFuel (m + 1) cells (.cell i) (.cell i) = none
      exact ih.1

/-- C5 counterexample: running (define x (quote (1))) and then
(set-cdr! x x) produces a pair whose cdr is itself, and on that pair
Equal(x, x) never returns within any fuel: the structural recursion
diverges, so Equal(x, x) does not terminate (with true or anything else) on
every constructible value. -/
theorem c5_counterexample :
    evalFuel 6 c5State 0 (some (.cell 5)) = .ok (none, c5StateMid) ∧
    evalFuel 6 c5StateMid 0 (some (.cell 8)) = .ok (none, c5StateCyc) ∧
    c5StateCyc.cells.get? 0 = some (some (.num 1), some (.cell 0)) ∧
    ¬ ∃ k r, equalFuel k c5StateCyc.cells (some (.cell 0)) (some (.cell 0)) = some r := by
  refine ⟨by decide, by decide, by decide, ?_⟩
  rintro ⟨k, r, hk⟩
  cases k with
  | zero => cases hk
  | succ m =>
    have h := (isEqual_cyc_pair c5StateCyc.cells 0 (by decide) m).1
    rw [show equalFuel (m + 1) c5StateCyc.cells (some (.cell 0)) (some (.cell 0)) =
        isEqualToFuel m c5StateCyc.cells (.cell 0) (.cell 0) from rfl, h] at hk
    cases hk

/-- The values whose cell graph is finite (no cycle reachable): exactly
those on which the structural equality recursion can terminate. -/
inductive FiniteVal (cells : List (SObj × SObj)) : SObj → Prop where
  | nil : FiniteVal cells none
  | num : ∀ v, FiniteVal cells (some (.num v))
  | boolean : ∀ b, FiniteVal cells (some (.boolean b))
  | sym : ∀ s, FiniteVal cells (some (.sym s))
  | lam : ∀ i, FiniteVal cells (some (.lambda i))
  | cell : ∀ i a b, cells.get? i = some (a, b) → FiniteVal cells a → FiniteVal cells b →
      FiniteVal cells (some (.cell i))

/-- A completed equality verdict is stable under extra fuel. -/
theorem equalFuel_mono (cells : List (SObj × SObj)) :
    ∀ n, (∀ a b r, equalFuel n cells a b = some r → equalFuel (n + 1) cells a b = some r) ∧
         (∀ x y r, isEqualToFuel n cells x y = some r →
            isEqualToFuel (n + 1) cells x y = some r) := by
  intro n
  induction n with
  | zero =>
    constructor
    · intro a b r h; simp [equalFuel] at h
    · intro x y r h; simp [isEqualToFuel] at h
  | succ m ih =>
    constructor
    · intro a b r h
      cases a with
      | none => cases b <;> exact h
      | some x =>
        cases b with
        | none => exact h
        | some y => exact ih.2 x y r h
    · intro x y r h
      cases x with
      | num v => exact h
      | boolean v => exact h
      | sym s => exact h
      | lambda i => exact h
      | cell i =>
        cases y with
        | num v => exact h
        | boolean v => exact h
        | sym s => exact h
        | lambda j => exact h
        | cell j =>
          cases hgi : cells.get? i with
          | none => simp [isEqualToFuel, ← List.get?_eq_getElem?, hgi] at h
          | some pr =>
            obtain ⟨a1, b1⟩ := pr
            cases hgj : cells.get? j with
            | none => simp [isEqualToFuel, ← List.get?_eq_getElem?, hgi, hgj] at h
            | some pr2 =>
              obtain ⟨a2, b2⟩ := pr2
              simp only [isEqualToFuel, ← List.get?_eq_getElem?, hgi, hgj] at h ⊢
              cases he1 : equalFuel m cells a1 a2 with
              | none => rw [he1] at h; cases h
              | some v1 =>
                cases v1 with
                | false =>
                  rw [he1] at h
                  rw [ih.1 a1 a2 false he1]
                  exact h
                | true =>
                  rw [he1] at h
                  rw [ih.1 a1 a2 true he1]
                  exact ih.1 b1 b2 r h

/-- A completed equality verdict is stable under any larger fuel. -/
theorem equalFuel_mono_le (cells : List (SObj × SObj)) {m n : Nat} (hmn : m ≤ n) :
    ∀ a b r, equalFuel m cells a b = some r → equalFuel n cells a b = some r := by
  induction hmn with
  | refl => intro a b r h; exact h
  | step _ ih =>
    intro a b r h
    exact (equalFuel_mono cells _).1 a b r (ih a b r h)

/-- C5 (amended): Equal(x, x) terminates with true for every value whose
cell graph is finite — Numbers, Booleans, Symbols, Lambdas, the empty list
and all acyclic Pair structures; on self-referential Pairs built via
set-cdr! the structural recursion never terminates (see the
counterexample). -/
theorem c5_equal_refl_finite (cells : List (SObj × SObj)) (x : SObj)
    (hx : FiniteVal cells x) : ∃ n, equalFuel n cells x x = some true := by
  induction hx with
  | nil => exact ⟨1, rfl⟩
  | num v => exact ⟨2, by simp [equalFuel, isEqualToFuel]⟩
  | boolean b => exact ⟨2, by simp [equalFuel, isEqualToFuel]⟩
  | sym s => exact ⟨2, by simp [equalFuel, isEqualToFuel]⟩
  | lam i => exact ⟨2, by simp [equalFuel, isEqualToFuel]⟩
  | cell i a b hget ha hb iha ihb =>
    obtain ⟨na, hna⟩ := iha
    obtain ⟨nb, hnb⟩ := ihb
    refine ⟨max na nb + 2, ?_⟩
    have ha2 : equalFuel (max na nb) cells a a = some true :=
      equalFuel_mono_le cells (le_max_left na nb) a a true hna
    have hb2 : equalFuel (max na nb) cells b b = some true :=
      equalFuel_mono_le cells (le_max_right na nb) b b true hnb
    show isEqualToFuel (max na nb + 1) cells (.cell i) (.cell i) = some true
    simp only [isEqualToFuel, hget]
    rw [ha2]
    exact hb2

/-- C5 witness: the amended theorem applied to the acyclic list (1) as it
sits in the c5State heap before the set-cdr!. -/
theorem c5_witness :
    FiniteVal c5State.cells (some (.cell 1)) ∧
    ∃ n, equalFuel n c5State.cells (some (.cell 1)) (some (.cell 1)) = some true :=
  have hf : FiniteVal c5State.cells (some (.cell 1)) :=
    FiniteVal.cell 1 (some (.cell 0)) none rfl
      (FiniteVal.cell 0 (some (.num 1)) none rfl (FiniteVal.num 1) FiniteVal.nil)
      FiniteVal.nil
  ⟨hf, c5_equal_refl_finite c5State.cells (some (.cell 1)) hf⟩

/-- The dynamic type test the comparison commands perform on each evaluated
argument. -/
def isNum : SObj → Bool
  | some (.num _) => true
  | _ => false

/-- The expression (op (quote a) (quote b)) over a fresh root environment,
with arbitrary operand values a and b delivered by quote. -/
def c6State (a b : SObj) (op : String) : State :=
  ⟨[(a, none), (some (.sym "quote"), some (.cell 0)), (b, none),
    (some (.sym "quote"), some (.cell 2)), (some (.cell 3), none),
    (some (.cell 1), some (.cell 4)), (some (.sym op), some (.cell 5))],
   [⟨none, [], 1⟩], []⟩

/-- When the two quoted operands are not both Numbers, the
evaluate-and-type-check loop of the comparison commands fails with
FailEvaluation (a RuntimeError). -/
theorem c6_args_error (a b : SObj) (op : String)
    (hab : ¬(isNum a = true ∧ isNum b = true)) :
    evalNumArgsWith (evalFuel 4) (c6State a b op) 0 [some (.cell 1), some (.cell 3)] =
      .error .runtimeErr := by
  have hqa : evalFuel 4 (c6State a b op) 0 (some (.cell 1)) = .ok (a, c6State a b op) := rfl
  have hqb : evalFuel 4 (c6State a b op) 0 (some (.cell 3)) = .ok (b, c6State a b op) := rfl
  cases a with
  | none => simp [evalNumArgsWith, hqa]
  | some x =>
    cases x with
    | num k =>
      cases b with
      | none => simp [evalNumArgsWith, hqa, hqb]
      | some y =>
        cases y with
        | num k2 => exact absurd ⟨rfl, rfl⟩ hab
        | boolean bb => simp [evalNumArgsWith, hqa, hqb]
        | sym s => simp [evalNumArgsWith, hqa, hqb]
        | cell i => simp [evalNumArgsWith, hqa, hqb]
        | lambda i => simp [evalNumArgsWith, hqa, hqb]
    | boolean bb => simp [evalNumArgsWith, hqa]
    | sym s => simp [evalNumArgsWith, hqa]
    | cell i => simp [evalNumArgsWith, hqa]
    | lambda i => simp [evalNumArgsWith, hqa]

/-- C6 (amended): evaluating an ordering comparison (<, >, <=, >=) whose
operands are not both Numbers — any other type, or the empty list — fails
with a RuntimeError (the FailEvaluation arm of the command's per-argument
type check), not with a NameError: the NameError-raising FailCompare path is
unreachable from these commands because every argument is verified to be a
Number before any comparison runs. -/
theorem c6_order_type_error_is_runtime (a b : SObj) (op : String)
    (hop : op ∈ ["<", ">", "<=", ">="])
    (hab : ¬(isNum a = true ∧ isNum b = true)) :
    evalFuel 5 (c6State a b op) 0 (some (.cell 6)) = .error .runtimeErr := by
  have harg := c6_args_error a b op hab
  simp only [List.mem_cons, List.not_mem_nil, or_false] at hop
  rcases hop with rfl | rfl | rfl | rfl
  · rw [show (5 : Nat) = 4 + 1 from rfl,
      eval_cell_command 4 (c6State a b "<") 0 6 "<"
        [some (.cell 1), some (.cell 3)] _ rfl rfl]
    simp [orderCmd, harg]
  · rw [show (5 : Nat) = 4 + 1 from rfl,
      eval_cell_command 4 (c6State a b ">") 0 6 ">"
        [some (.cell 1), some (.cell 3)] _ rfl rfl]
    simp [orderCmd, harg]
  · rw [show (5 : Nat) = 4 + 1 from rfl,
      eval_cell_command 4 (c6State a b "<=") 0 6 "<="
        [some (.cell 1), some (.cell 3)] _ rfl rfl]
    simp [orderCmd, harg]
  · rw [show (5 : Nat) = 4 + 1 from rfl,
      eval_cell_command 4 (c6State a b ">=") 0 6 ">="
        [some (.cell 1), some (.cell 3)] _ rfl rfl]
    simp [orderCmd, harg]

/-- C6 witness: the amended theorem applied to (< (quote 1) (quote #t)). -/
theorem c6_witness :
    ("<" ∈ ["<", ">", "<=", ">="]) ∧
    (¬(isNum (some (.num 1)) = true ∧ isNum (some (.boolean true)) = true)) ∧
    evalFuel 5 (c6State (some (.num 1)) (some (.boolean true)) "<") 0 (some (.cell 6)) =
      .error .runtimeErr :=
  ⟨by decide, by decide,
    c6_order_type_error_is_runtime (some (.num 1)) (some (.boolean true)) "<"
      (by decide) (by decide)⟩

end Scheme
